import Mathlib

/-!
Shallow embedding of the rtthw/wgpu-bog repository:
  * src/bog/src/test_renderer.rs — the quad-batching renderer
    (Vertex, Quad, Renderer with start / add_quad / add_quads / finish);
  * src/src/main.rs — the windowed state (State::render, State::resize and
    the RedrawRequested error match of main).
The f32 scalars of the source are embedded as exact rationals (no claim here
depends on rounding); u32 values are embedded as Nat, with the one cast that
can truncate (indices.len() as u32 in Renderer::finish) written out as
% 2 ^ 32.
-/

namespace Bog

/-- Embedding of struct Vertex (test_renderer.rs): a 2D position and an RGB
color, the two vertex attributes of the pipeline. -/
structure Vertex where
  pos : ℚ × ℚ
  color : ℚ × ℚ × ℚ
  deriving DecidableEq, Repr

/-- Embedding of struct Quad (test_renderer.rs): an axis-aligned rectangle as
position and size. -/
structure Quad where
  pos : ℚ × ℚ
  size : ℚ × ℚ
  deriving DecidableEq, Repr

namespace Quad

/-- Embedding of Quad::new. -/
def new (pos size : ℚ × ℚ) : Quad := ⟨pos, size⟩

/-- Embedding of Quad::num_indices (= 6). -/
def num_indices : Nat := 6

/-- Embedding of Quad::num_vertices (= 4). -/
def num_vertices : Nat := 4

/-- Embedding of Quad::indices_u16: the per-quad index pattern. -/
def indices_u16 : List Nat := [0, 1, 2, 2, 1, 3]

/-- Embedding of Quad::indices_u32: the per-quad index pattern. -/
def indices_u32 : List Nat := [0, 1, 2, 2, 1, 3]

/-- The four vertices Quad::push_with_color builds, in source order:
pos, pos + (w,0), pos + (0,h), pos + (w,h), each carrying the given color. -/
def corner_vertices (q : Quad) (color : ℚ × ℚ × ℚ) : List Vertex :=
  [ ⟨q.pos, color⟩,
    ⟨(q.pos.1 + q.size.1, q.pos.2), color⟩,
    ⟨(q.pos.1, q.pos.2 + q.size.2), color⟩,
    ⟨(q.pos.1 + q.size.1, q.pos.2 + q.size.2), color⟩ ]

/-- Embedding of Quad::push_with_color: out.extend([the four corners]). -/
def push_with_color (q : Quad) (color : ℚ × ℚ × ℚ) (out : List Vertex) :
    List Vertex :=
  out ++ q.corner_vertices color

end Quad

/-- Embedding of struct Renderer (test_renderer.rs): the accumulated vertex
and index vectors. -/
structure Renderer where
  vertices : List Vertex
  indices : List Nat
  deriving DecidableEq, Repr

namespace Renderer

/-- Embedding of Renderer::start: both vectors empty. -/
def start : Renderer := ⟨[], []⟩

/-- Embedding of Renderer::add_quad: extend indices with Quad::indices_u32
and push the colored corners of the quad (the reserve_exact calls only
preallocate capacity and have no observable effect on the contents). -/
def add_quad (r : Renderer) (quad : Quad) (color : ℚ × ℚ × ℚ) : Renderer :=
  { vertices := quad.push_with_color color r.vertices,
    indices := r.indices ++ Quad.indices_u32 }

/-- Embedding of Renderer::add_quads: extend indices with
Quad::indices_u32().repeat(quads.len()) and push each quad's colored
corners in order. -/
def add_quads (r : Renderer) (quads : List Quad) (color : ℚ × ℚ × ℚ) :
    Renderer :=
  { vertices := quads.foldl (fun out q => q.push_with_color color out) r.vertices,
    indices := r.indices ++ (List.replicate quads.length Quad.indices_u32).flatten }

/-- Embedding of Renderer::finish: the two created buffers hold exactly the
byte-cast vertex and index vectors (bytemuck::cast_slice preserves the
elements in order, so buffer contents are modelled by the vectors
themselves), and the third component is self.indices.len() as u32, a
truncating cast, hence the length reduced mod 2 ^ 32. -/
def finish (r : Renderer) : List Vertex × List Nat × Nat :=
  (r.vertices, r.indices, r.indices.length % 2 ^ 32)

end Renderer

/-- One call of the accumulation interface of Renderer. -/
inductive Op where
  | add_quad (quad : Quad) (color : ℚ × ℚ × ℚ)
  | add_quads (quads : List Quad) (color : ℚ × ℚ × ℚ)
  deriving Repr

/-- How many quads one call adds. -/
def Op.quadCount : Op → Nat
  | .add_quad _ _ => 1
  | .add_quads quads _ => quads.length

/-- Apply one accumulation call to a renderer state. -/
def Renderer.applyOp (r : Renderer) : Op → Renderer
  | .add_quad q c => r.add_quad q c
  | .add_quads qs c => r.add_quads qs c

/-- Run a sequence of accumulation calls from Renderer::start. -/
def Renderer.run (ops : List Op) : Renderer :=
  ops.foldl Renderer.applyOp Renderer.start

/-- Total number of quads a sequence of calls adds. -/
def quadTotal (ops : List Op) : Nat :=
  (ops.map Op.quadCount).sum

/-! Helper lemmas about the accumulation operations. They are shared
infrastructure; the claim theorems below build on them. -/

/-- Folding push_with_color over a list of quads appends, in order, each
quad's four colored corners. -/
theorem foldl_push_with_color (c : ℚ × ℚ × ℚ) (qs : List Quad)
    (out : List Vertex) :
    qs.foldl (fun o q => q.push_with_color c o) out
      = out ++ (qs.map (fun q => q.corner_vertices c)).flatten := by
  induction qs generalizing out with
  | nil => simp
  | cons q qs ih =>
      rw [List.foldl_cons, ih]
      simp [Quad.push_with_color]

/-- The appended corner block of one quad has 4 vertices. -/
theorem corner_vertices_length (q : Quad) (c : ℚ × ℚ × ℚ) :
    (q.corner_vertices c).length = 4 := rfl

/-- The concatenated corner blocks of a quad list have 4 vertices per quad. -/
theorem flatten_corners_length (c : ℚ × ℚ × ℚ) (qs : List Quad) :
    ((qs.map (fun q => q.corner_vertices c)).flatten).length = 4 * qs.length := by
  induction qs with
  | nil => simp
  | cons q qs ih => simp [ih, corner_vertices_length]; ring

/-- The repeated index pattern for n quads has 6 indices per quad. -/
theorem flatten_replicate_indices_length (n : Nat) :
    ((List.replicate n Quad.indices_u32).flatten).length = 6 * n := by
  induction n with
  | zero => simp
  | succ n ih => simp [List.replicate_succ, ih, Quad.indices_u32]; ring

/-- How one accumulation call extends the vertex vector. -/
theorem applyOp_vertices (r : Renderer) (op : Op) :
    (r.applyOp op).vertices = r.vertices ++
      (match op with
       | .add_quad q c => q.corner_vertices c
       | .add_quads qs c => (qs.map (fun q => q.corner_vertices c)).flatten) := by
  cases op with
  | add_quad q c => rfl
  | add_quads qs c =>
      simpa [Renderer.applyOp, Renderer.add_quads] using
        foldl_push_with_color c qs r.vertices

/-- How one accumulation call extends the index vector. -/
theorem applyOp_indices (r : Renderer) (op : Op) :
    (r.applyOp op).indices = r.indices ++
      (match op with
       | .add_quad _ _ => Quad.indices_u32
       | .add_quads qs _ => (List.replicate qs.length Quad.indices_u32).flatten) := by
  cases op with
  | add_quad q c => rfl
  | add_quads qs c => rfl

/-- One call grows the vertex vector by 4 vertices per quad. -/
theorem applyOp_vertices_length (r : Renderer) (op : Op) :
    (r.applyOp op).vertices.length = r.vertices.length + 4 * op.quadCount := by
  rw [applyOp_vertices]
  cases op with
  | add_quad q c => simp [Quad.corner_vertices, Op.quadCount]
  | add_quads qs c =>
      rw [List.length_append, flatten_corners_length]
      simp [Op.quadCount]

/-- One call grows the index vector by 6 indices per quad. -/
theorem applyOp_indices_length (r : Renderer) (op : Op) :
    (r.applyOp op).indices.length = r.indices.length + 6 * op.quadCount := by
  rw [applyOp_indices]
  cases op with
  | add_quad q c => simp [Quad.indices_u32, Op.quadCount]
  | add_quads qs c =>
      rw [List.length_append, flatten_replicate_indices_length]
      simp [Op.quadCount]

/-- Vertex-vector length after a run from start: 4 per quad. -/
theorem foldl_applyOp_vertices_length (ops : List Op) (r : Renderer) :
    (ops.foldl Renderer.applyOp r).vertices.length
      = r.vertices.length + 4 * quadTotal ops := by
  induction ops generalizing r with
  | nil => simp [quadTotal]
  | cons op ops ih =>
      rw [List.foldl_cons, ih, applyOp_vertices_length]
      simp [quadTotal, Nat.mul_add]
      ring

/-- Index-vector length after a run from start: 6 per quad. -/
theorem foldl_applyOp_indices_length (ops : List Op) (r : Renderer) :
    (ops.foldl Renderer.applyOp r).indices.length
      = r.indices.length + 6 * quadTotal ops := by
  induction ops generalizing r with
  | nil => simp [quadTotal]
  | cons op ops ih =>
      rw [List.foldl_cons, ih, applyOp_indices_length]
      simp [quadTotal, Nat.mul_add]
      ring

/-- Every index a call appends is one of 0, 1, 2, 3. -/
theorem applyOp_indices_mem (r : Renderer) (op : Op) (i : Nat)
    (h : i ∈ (r.applyOp op).indices) : i ∈ r.indices ∨ i < 4 := by
  rw [applyOp_indices] at h
  rcases List.mem_append.mp h with h | h
  · exact Or.inl h
  · right
    cases op with
    | add_quad q c =>
        simp only [Quad.indices_u32] at h
        fin_cases h <;> omega
    | add_quads qs c =>
        rcases List.mem_flatten.mp h with ⟨l, hl, hil⟩
        rcases List.eq_of_mem_replicate hl with rfl
        simp only [Quad.indices_u32] at hil
        fin_cases hil <;> omega

/-! Embedding of src/src/main.rs: the per-frame render procedure, the
RedrawRequested error match of main, and State::resize. -/

/-- Embedding of wgpu::SurfaceError, the error type of
surface.get_current_texture() and of State::render. -/
inductive SurfaceError where
  | lost
  | outdated
  | outOfMemory
  | other
  | timeout
  deriving DecidableEq, Repr

/-- One observable graphics command State::render records, in the order the
source issues them. -/
inductive RenderCmd where
  | beginRenderPassClear (r g b a : ℚ)
  | setPipeline
  | setVertexBuffer (slot : Nat)
  | setIndexBuffer
  | drawIndexed (first last : Nat) (baseVertex : Int) (firstInstance lastInstance : Nat)
  | submit
  | present
  deriving DecidableEq, Repr

/-- Whether a command is a draw call. -/
def isDrawCmd : RenderCmd → Bool
  | .drawIndexed _ _ _ _ _ => true
  | _ => false

/-- Embedding of State::render. The outcome of
self.surface.get_current_texture() is passed in as acq (the texture itself
carries no information the embedding needs); the source calls .unwrap() on
it, so an error there panics — modelled as none. Otherwise the straight-line
body records: begin the render pass with LoadOp::Clear of the solid color
(0.2, 0.1, 0.3, 1.0), set the pipeline, set vertex buffer slot 0, set the
index buffer, draw_indexed(0..num_indices, 0, 0..1), submit, present — and
the function ends in Ok(()). -/
def render (num_indices : Nat) (acq : Except SurfaceError Unit) :
    Option (List RenderCmd × Except SurfaceError Unit) :=
  match acq with
  | .error _ => none
  | .ok _ =>
      some ([RenderCmd.beginRenderPassClear (2 / 10) (1 / 10) (3 / 10) 1,
             RenderCmd.setPipeline,
             RenderCmd.setVertexBuffer 0,
             RenderCmd.setIndexBuffer,
             RenderCmd.drawIndexed 0 num_indices 0 0 1,
             RenderCmd.submit,
             RenderCmd.present],
            Except.ok ())

/-- What the RedrawRequested handler of main does next, per match arm. -/
inductive LoopAction where
  | keepGoing
  | recoverResize
  | exitLoop
  | warnKeepGoing
  deriving DecidableEq, Repr

/-- Embedding of the match on state.render() in the RedrawRequested arm of
main: Ok continues, Lost and Outdated call state.resize(state.size) and
continue, OutOfMemory and Other exit the loop, Timeout prints a warning and
continues. -/
def redrawHandlerAction : Except SurfaceError Unit → LoopAction
  | .ok _ => .keepGoing
  | .error .lost => .recoverResize
  | .error .outdated => .recoverResize
  | .error .outOfMemory => .exitLoop
  | .error .other => .exitLoop
  | .error .timeout => .warnKeepGoing

/-- Embedding of struct State (main.rs): the fields State::resize can reach.
size is the PhysicalSize, configW and configH the width and height of the
SurfaceConfiguration; the remaining fields (buffers, draw count) stand for
everything else resize leaves untouched. -/
structure MainState where
  sizeW : Nat
  sizeH : Nat
  configW : Nat
  configH : Nat
  num_indices : Nat
  vertexBufferContents : List Vertex
  indexBufferContents : List Nat
  deriving DecidableEq, Repr

/-- Embedding of State::resize: when new_size.width > 0 && new_size.height > 0
it writes size and config.width/height and reconfigures the surface
(the returned Bool records whether surface.configure ran); otherwise it does
nothing. -/
def MainState.resize (s : MainState) (w h : Nat) : MainState × Bool :=
  if 0 < w ∧ 0 < h then
    ({ s with sizeW := w, sizeH := h, configW := w, configH := h }, true)
  else
    (s, false)

/-- After any run from start every index is below 4. -/
theorem run_indices_lt (ops : List Op) :
    ∀ i ∈ (Renderer.run ops).indices, i < 4 := by
  suffices h : ∀ (ops : List Op) (r : Renderer),
      (∀ i ∈ r.indices, i < 4) → ∀ i ∈ (ops.foldl Renderer.applyOp r).indices, i < 4 by
    refine h ops Renderer.start ?_
    intro i hi
    simp [Renderer.start] at hi
  intro ops
  induction ops with
  | nil => intro r hr; simpa using hr
  | cons op ops ih =>
      intro r hr i hi
      refine ih (r.applyOp op) ?_ i hi
      intro j hj
      rcases applyOp_indices_mem r op j hj with h | h
      · exact hr j h
      · exact h

/-! Definitions used only to state claims (formalising the words of the
spec, to be compared with what the source does). -/

/-- The vertex indices two triangles have in common (the shared edge): the
members of the first triangle that the second also contains. -/
def sharedVerts (t1 t2 : List Nat) : List Nat :=
  t1.filter (fun i => t2.contains i)

/-- A pair of points is a diagonal of the rectangle of a quad when it joins
two opposite corners: either pos with pos + size, or the corner pos + (w, 0)
with the corner pos + (0, h). -/
def Quad.isDiagonal (q : Quad) (a b : ℚ × ℚ) : Prop :=
  (a = q.pos ∧ b = (q.pos.1 + q.size.1, q.pos.2 + q.size.2))
  ∨ (b = q.pos ∧ a = (q.pos.1 + q.size.1, q.pos.2 + q.size.2))
  ∨ (a = (q.pos.1 + q.size.1, q.pos.2) ∧ b = (q.pos.1, q.pos.2 + q.size.2))
  ∨ (b = (q.pos.1 + q.size.1, q.pos.2) ∧ a = (q.pos.1, q.pos.2 + q.size.2))

/-- C1: evaluating the renderer on two quads (added by one add_quads call)
shows the claim's shifted pattern does not hold: the second quad's six
indices are appended unshifted, as 0,1,2,2,1,3 again, not 4,5,6,6,5,7.
The code never adds the stride 4 * k. -/
theorem claim_C1_code_eval :
    (Renderer.run [Op.add_quads
        [Quad.new (0, 0) (1, 1), Quad.new (2, 2) (1, 1)] (0, 0, 0)]).indices
      = [0, 1, 2, 2, 1, 3, 0, 1, 2, 2, 1, 3] := by
  decide

/-- C2: push_with_color appends exactly the four corner vertices
(x, y), (x + w, y), (x, y + h), (x + w, y + h), each with the given color;
indices_u32 is the two triangles (0, 1, 2) and (2, 1, 3); the vertices the
two triangles share are exactly 1 and 2; and the edge joining vertex 1 at
(x + w, y) with vertex 2 at (x, y + h) is a diagonal of the rectangle. -/
theorem claim_C2 (q : Quad) (c : ℚ × ℚ × ℚ) (out : List Vertex) :
    q.push_with_color c out
      = out ++ [⟨q.pos, c⟩,
                ⟨(q.pos.1 + q.size.1, q.pos.2), c⟩,
                ⟨(q.pos.1, q.pos.2 + q.size.2), c⟩,
                ⟨(q.pos.1 + q.size.1, q.pos.2 + q.size.2), c⟩]
    ∧ Quad.indices_u32 = [0, 1, 2] ++ [2, 1, 3]
    ∧ sharedVerts [0, 1, 2] [2, 1, 3] = [1, 2]
    ∧ q.isDiagonal (q.pos.1 + q.size.1, q.pos.2) (q.pos.1, q.pos.2 + q.size.2) := by
  exact ⟨rfl, rfl, rfl, Or.inr (Or.inr (Or.inl ⟨rfl, rfl⟩))⟩

/-- C3, counterexample to the claim as stated: after one add_quad from start,
indices.len() is 6 and vertices.len() is 4, and the claimed identity
3 * indices.len() = 2 * (3 * vertices.len() / 2) reads 18 = 12, which is
false. -/
theorem claim_C3_counterexample :
    ¬ (3 * (Renderer.run [Op.add_quad (Quad.new (0, 0) (1, 1)) (0, 0, 0)]).indices.length
        = 2 * (3 * (Renderer.run [Op.add_quad (Quad.new (0, 0) (1, 1)) (0, 0, 0)]).vertices.length / 2)) := by
  decide

/-- C3 (amended): after any sequence of add_quad and add_quads calls adding
n quads in total, the vertex vector has 4 * n elements and the index vector
6 * n, so 2 * indices.len() = 3 * vertices.len() — equivalently
indices.len() * 4 = vertices.len() * 6 — holds as an invariant of every
operation. -/
theorem claim_C3_amended (ops : List Op) :
    (Renderer.run ops).vertices.length = 4 * quadTotal ops
    ∧ (Renderer.run ops).indices.length = 6 * quadTotal ops
    ∧ 2 * (Renderer.run ops).indices.length = 3 * (Renderer.run ops).vertices.length
    ∧ (Renderer.run ops).indices.length * 4 = (Renderer.run ops).vertices.length * 6 := by
  have hv := foldl_applyOp_vertices_length ops Renderer.start
  have hi := foldl_applyOp_indices_length ops Renderer.start
  simp [Renderer.run, Renderer.start] at hv hi ⊢
  rw [hv, hi]
  omega

/-- C4: both accumulation calls are append-only — the previous vertex and
index vectors are prefixes of the new ones (the new vectors are the old ones
followed by the freshly built entries), so no existing entry is modified or
removed. -/
theorem claim_C4 (r : Renderer) (q : Quad) (qs : List Quad) (c : ℚ × ℚ × ℚ) :
    (r.add_quad q c).vertices = r.vertices ++ q.corner_vertices c
    ∧ (r.add_quad q c).indices = r.indices ++ Quad.indices_u32
    ∧ (r.add_quads qs c).vertices
        = r.vertices ++ (qs.map (fun q => q.corner_vertices c)).flatten
    ∧ (r.add_quads qs c).indices
        = r.indices ++ (List.replicate qs.length Quad.indices_u32).flatten := by
  refine ⟨rfl, rfl, ?_, rfl⟩
  simpa [Renderer.add_quads] using foldl_push_with_color c qs r.vertices

/-- The quad count of the oversized batch below. -/
def hugeN : Nat := 2 ^ 30

/-- A run whose single add_quads call adds 2 ^ 30 quads: its index vector
has 6 * 2 ^ 30 entries, which exceeds 2 ^ 32. -/
def hugeOps : List Op :=
  [Op.add_quads (List.replicate hugeN (Quad.new (0, 0) (1, 1))) (0, 0, 0)]

/-- Index-vector length of the huge run. -/
theorem hugeOps_indices_length :
    (Renderer.run hugeOps).indices.length = 6 * hugeN := by
  have h := foldl_applyOp_indices_length hugeOps Renderer.start
  have hq : quadTotal hugeOps = hugeN := by
    simp [hugeOps, quadTotal, Op.quadCount]
  rw [hq] at h
  simpa [Renderer.run, Renderer.start] using h

/-- The third component finish returns is the index-vector length cast to
u32 (reduced mod 2 ^ 32). -/
theorem finish_third (r : Renderer) :
    (r.finish).2.2 = r.indices.length % 2 ^ 32 := rfl

/-- C5, counterexample to the claim as stated: finish returns
self.indices.len() as u32, a truncating cast; on a renderer whose index
vector holds 6 * 2 ^ 30 entries (one add_quads call with 2 ^ 30 quads) the
returned count differs from the length of the accumulated index array. -/
theorem claim_C5_counterexample :
    ((Renderer.run hugeOps).finish).2.2 ≠ (Renderer.run hugeOps).indices.length := by
  rw [finish_third, hugeOps_indices_length]
  norm_num [hugeN]

/-- C5 (amended): finish returns the accumulated vertex and index vectors as
the two buffer contents, unmodified and in order, and as its third component
the index-array length cast to u32, i.e. (6 * number of quads) mod 2 ^ 32;
whenever that length is below 2 ^ 32 (every realistic batch) the third
component equals the exact length of the accumulated index array, 6 times
the total number of quads added. -/
theorem claim_C5_amended (ops : List Op) :
    ((Renderer.run ops).finish).1 = (Renderer.run ops).vertices
    ∧ ((Renderer.run ops).finish).2.1 = (Renderer.run ops).indices
    ∧ ((Renderer.run ops).finish).2.2 = (6 * quadTotal ops) % 2 ^ 32
    ∧ (6 * quadTotal ops < 2 ^ 32 →
        ((Renderer.run ops).finish).2.2 = (Renderer.run ops).indices.length
        ∧ ((Renderer.run ops).finish).2.2 = 6 * quadTotal ops) := by
  have hi : (Renderer.run ops).indices.length = 6 * quadTotal ops := by
    have h := foldl_applyOp_indices_length ops Renderer.start
    simpa [Renderer.run, Renderer.start] using h
  refine ⟨rfl, rfl, by rw [finish_third, hi], fun hlt => ⟨?_, ?_⟩⟩
  · rw [finish_third, hi, Nat.mod_eq_of_lt hlt]
  · rw [finish_third, hi, Nat.mod_eq_of_lt hlt]

/-- C6: any error produced inside State::render (a failed surface
acquisition) hits .unwrap() and panics, so no recovery runs for it; and
every outcome render actually hands to the RedrawRequested match is Ok, for
which the handler takes no corrective action and simply keeps going — the
corrective arms never act on an error render produced. -/
theorem claim_C6 (n : Nat) (acq : Except SurfaceError Unit) :
    (∀ e : SurfaceError, acq = Except.error e → render n acq = none)
    ∧ (∀ tr res, render n acq = some (tr, res)
        → redrawHandlerAction res = LoopAction.keepGoing) := by
  constructor
  · rintro e rfl
    rfl
  · intro tr res h
    cases acq with
    | error e => simp [render] at h
    | ok u =>
        cases u
        simp only [render, Option.some.injEq, Prod.mk.injEq] at h
        rw [← h.2]
        rfl

/-- C6 witness: at a failed acquisition render panics (returns none), and at
a successful acquisition the handler keeps going with no corrective
action. -/
theorem claim_C6_witness :
    render 6 (Except.error SurfaceError.lost) = none
    ∧ redrawHandlerAction (Except.ok ()) = LoopAction.keepGoing :=
  ⟨(claim_C6 6 (Except.error SurfaceError.lost)).1 SurfaceError.lost rfl,
   (claim_C6 6 (Except.ok ())).2 _ _ rfl⟩

/-- C7: on a frame whose surface acquisition succeeds, render records, in
order: begin the render pass clearing to the solid color (0.2, 0.1, 0.3, 1),
bind the pipeline, bind the vertex buffer and the index buffer, issue
exactly one indexed draw over index range 0..num_indices with the single
instance range 0..1, submit, and present; the only draw command of the
trace is that one. -/
theorem claim_C7 (n : Nat) :
    render n (Except.ok ())
      = some ([RenderCmd.beginRenderPassClear (2 / 10) (1 / 10) (3 / 10) 1,
               RenderCmd.setPipeline,
               RenderCmd.setVertexBuffer 0,
               RenderCmd.setIndexBuffer,
               RenderCmd.drawIndexed 0 n 0 0 1,
               RenderCmd.submit,
               RenderCmd.present], Except.ok ())
    ∧ ∀ tr res, render n (Except.ok ()) = some (tr, res) →
        tr.filter isDrawCmd = [RenderCmd.drawIndexed 0 n 0 0 1]
        ∧ tr.head? = some (RenderCmd.beginRenderPassClear (2 / 10) (1 / 10) (3 / 10) 1)
        ∧ tr.getLast? = some RenderCmd.present := by
  refine ⟨rfl, ?_⟩
  intro tr res h
  simp only [render, Option.some.injEq, Prod.mk.injEq] at h
  rw [← h.1]
  exact ⟨rfl, rfl, rfl⟩

/-- C8: after any sequence of add_quad and add_quads calls from start, every
element of the index vector is below 4 — the indices only ever reference the
first four vertices, however many quads were added. -/
theorem claim_C8 (ops : List Op) :
    ∀ i ∈ (Renderer.run ops).indices, i < 4 :=
  run_indices_lt ops

/-- C8 witness: the index 3 occurs after a single add_quad and is below 4. -/
theorem claim_C8_witness : (3 : Nat) < 4 :=
  claim_C8 [Op.add_quad (Quad.new (0, 0) (1, 1)) (0, 0, 0)] 3 (by decide)

/-- C9: every execution of State::render either panics at the unwrapped
surface acquisition (none) or returns Ok(()); it never returns an Err value,
so the SurfaceError arms of the RedrawRequested match are unreachable. -/
theorem claim_C9 (n : Nat) (acq : Except SurfaceError Unit) :
    (render n acq = none ∨ ∃ tr, render n acq = some (tr, Except.ok ()))
    ∧ ∀ (e : SurfaceError) (tr : List RenderCmd),
        render n acq ≠ some (tr, Except.error e) := by
  cases acq with
  | error e =>
      refine ⟨Or.inl rfl, ?_⟩
      intro e tr h
      simp [render] at h
  | ok u =>
      cases u
      refine ⟨Or.inr ⟨_, rfl⟩, ?_⟩
      intro e tr h
      simp [render] at h

/-- C10: State::resize with a zero width or zero height leaves every field
of the state unchanged and does not reconfigure the surface; the surface is
reconfigured, and size and config updated, exactly when both dimensions are
strictly positive. -/
theorem claim_C10 (s : MainState) (w h : Nat) :
    ((w = 0 ∨ h = 0) → s.resize w h = (s, false))
    ∧ ((s.resize w h).2 = true ↔ 0 < w ∧ 0 < h)
    ∧ (0 < w → 0 < h → s.resize w h
        = ({ s with sizeW := w, sizeH := h, configW := w, configH := h }, true)) := by
  refine ⟨?_, ?_, ?_⟩
  · intro h0
    have hc : ¬ (0 < w ∧ 0 < h) := by omega
    simp [MainState.resize, hc]
  · by_cases hc : 0 < w ∧ 0 < h
    · simp [MainState.resize, hc]
    · simp [MainState.resize, hc]
  · intro hw hh
    simp [MainState.resize, hw, hh]

end Bog
